import Mathlib

/-!
# Checkpoint: selection and navigation state of `source/gui.cpp`

A shallow embedding of the multi-selection vector, the focus flag and the grid
index arithmetic of `source/gui.cpp`, followed by the properties proved about
them.

Conventions of the embedding

* The target is the 32-bit ARM11 of the handheld: `size_t` is an unsigned
  32-bit integer and `int` a signed 32-bit integer.  A `size_t` value is a
  `Nat`; every `size_t` operation that can leave the range is reduced modulo
  `2^32` explicitly (`wrapSz`, `subSz`), and the conversion to `int` performed
  by the return statements of `getSelectorX` / `getSelectorY` is `toInt32`
  (reduction modulo `2^32` into the signed range, as the GCC toolchain of the
  target defines it).
* The file-static objects (`selectedEntries`, `directoryList`) and the members
  of the single `Gui` object are gathered in one record, `State`; every
  function of the module is a function on `State`.
* `rowlen` and `collen` are members of `Gui` declared in `gui.h`; they are
  fields of `State` that no operation changes.
* Functions defined in other translation units (`getTitlesCount`,
  `calculateIndex`, `Scrollable::updateSelection`) are parameters.  The polled
  input is read inside `calculateIndex` and `updateSelection`, so quantifying
  over these parameters quantifies over every input.
* A division or remainder by zero is undefined behaviour in the source; the
  functions that perform one return `none` there.
-/

namespace Checkpoint

/-! ## Machine integers -/

/-- Number of values of a `size_t` (32 bits). -/
def sizeMod : Nat := 4294967296

/-- Reduction of a natural number to the `size_t` range. -/
def wrapSz (n : Nat) : Nat := n % sizeMod

/-- Subtraction of two `size_t` values: the result wraps around below zero. -/
def subSz (a b : Nat) : Nat := (wrapSz a + (sizeMod - wrapSz b)) % sizeMod

/-- Conversion of a `size_t` value to `int` (wrap-around on 32 bits). -/
def toInt32 (n : Nat) : Int :=
  if wrapSz n < 2147483648 then (wrapSz n : Int) else (wrapSz n : Int) - 4294967296

/-! ## Data model -/

/-- Modelled from the spec: the class `Scrollable` of the directory list
(`scrollable.h` / `scrollable.cpp` are not part of the sources).  The spec
describes the list selector as the current row index into the list together
with a scroll offset. -/
structure Scrollable where
  index : Nat
  offset : Nat
  deriving DecidableEq

/-- Modelled from the spec: `Scrollable::getIndex`, the current row of the
list selector. -/
def Scrollable.getIndex (s : Scrollable) : Nat := s.index

/-- Modelled from the spec: `Scrollable::resetIndex`, which puts the list back
on its first row with a scroll offset of zero. -/
def Scrollable.resetIndex (_s : Scrollable) : Scrollable := ⟨0, 0⟩

/-- The state of the module: the file-static `selectedEntries` (line 32) and
`directoryList` (line 28), and the members of the `Gui` object. -/
structure State where
  selectedEntries : List Nat
  directoryList : Scrollable
  index : Nat
  page : Nat
  rowlen : Nat
  collen : Nat
  bottomScrollEnabled : Bool
  deriving DecidableEq

/-- The state after the static initialisers and the constructor `Gui::Gui`
(lines 93-104) of a grid of `rowlen` rows and `collen` columns: nothing is
selected, the selector is on the first cell of the first page and the grid has
the focus. -/
def initialState (rowlen collen : Nat) : State :=
  { selectedEntries := [], directoryList := ⟨0, 0⟩, index := 0, page := 0,
    rowlen := rowlen, collen := collen, bottomScrollEnabled := false }

/-! ## Multi selection (lines 30-68) -/

/-- Function `getSelectedEntries` (lines 34-37). -/
def getSelectedEntries (st : State) : List Nat := st.selectedEntries

/-- Function `multipleSelectionEnabled` (lines 39-42). -/
def multipleSelectionEnabled (st : State) : Bool := !st.selectedEntries.isEmpty

/-- Function `clearSelectedEntries` (lines 44-47). -/
def clearSelectedEntries (st : State) : State := { st with selectedEntries := [] }

/-- The scan of `addSelectedEntry` (lines 52-58):
`for (i = 0; i < sz && existing == -1; i++) if (at(i) == index) existing = (int)i;`.
The list argument is the part of the vector from position `i` on, so the loop
test `i < sz` is the test that this part is not empty.  The cast `(int)i` is
exact: a `std::vector<size_t>` of the 32-bit target holds fewer than `2^30`
elements. -/
def findExisting (index : Nat) : List Nat → Nat → Int → Int
  | [], _, existing => existing
  | x :: rest, i, existing =>
    if existing = -1 then
      findExisting index rest (i + 1) (if x = index then (i : Int) else existing)
    else existing

/-- Function `addSelectedEntry` (lines 49-68): `push_back(index)` when the scan
found nothing, `erase(begin() + existing)` otherwise. -/
def addSelectedEntry (index : Nat) (st : State) : State :=
  let existing := findExisting index st.selectedEntries 0 (-1)
  if existing = -1 then
    { st with selectedEntries := st.selectedEntries ++ [index] }
  else
    { st with selectedEntries := st.selectedEntries.eraseIdx existing.toNat }

/-- A call of one of the two functions that write the selection. -/
inductive SelOp where
  | add (index : Nat)
  | clear
  deriving DecidableEq

/-- Effect of one selection call. -/
def SelOp.apply (st : State) : SelOp → State
  | .add index => addSelectedEntry index st
  | .clear => clearSelectedEntries st

/-- Effect of a sequence of selection calls, first call first. -/
def runSelOps (ops : List SelOp) (st : State) : State := ops.foldl SelOp.apply st

/-! ## Focus flag and grid selector (lines 126-193, 306-310) -/

/-- Function `Gui::getBottomScroll` (lines 126-129). -/
def getBottomScroll (st : State) : Bool := st.bottomScrollEnabled

/-- Function `Gui::getNormalizedIndex` (lines 131-134):
`index + page*rowlen*collen`, computed on `size_t`. -/
def getNormalizedIndex (st : State) : Nat :=
  wrapSz (st.index + wrapSz (wrapSz (st.page * st.rowlen) * st.collen))

/-- Function `Gui::setBottomScroll` (lines 136-139). -/
def setBottomScroll (enable : Bool) (st : State) : State :=
  { st with bottomScrollEnabled := enable }

/-- Function `Gui::resetIndex` (lines 306-310). -/
def resetIndex (st : State) : State := { st with index := 0, page := 0 }

/-- The local `entries` of `updateSelector` and `draw` (lines 159 and 197):
`rowlen * collen` on `size_t`. -/
def gridEntries (st : State) : Nat := wrapSz (st.rowlen * st.collen)

/-- The local `maxentries` of `updateSelector` (line 160):
`(n - page*entries) > entries ? entries : n - page*entries` on `size_t`. -/
def maxentries (titlesCount page entries : Nat) : Nat :=
  if subSz titlesCount (wrapSz (page * entries)) > entries then entries
  else subSz titlesCount (wrapSz (page * entries))

/-- The local `max` of `draw` (line 198), the same expression as line 160. -/
def drawMax (titlesCount page entries : Nat) : Nat :=
  if subSz titlesCount (wrapSz (page * entries)) > entries then entries
  else subSz titlesCount (wrapSz (page * entries))

/-- The local `maxpages` of `updateSelector` (line 161):
`getTitlesCount() / entries + 1` on `size_t`; the division is undefined when
`entries` is zero. -/
def maxpages (titlesCount entries : Nat) : Option Nat :=
  if entries = 0 then none else some (wrapSz (titlesCount / entries + 1))

/-- Function `Gui::updateSelector` (lines 155-170).  `calculateIndex` (defined
in another translation unit) receives `index` and `page` by reference and the
four values computed on lines 159-161; it is a parameter that returns the new
`(index, page)`.  `updateSelection` stands for `Scrollable::updateSelection`
and `titlesCount` for the value of `getTitlesCount()`. -/
def updateSelector (calculateIndex : Nat → Nat → Nat → Nat → Nat → Nat → Nat × Nat)
    (updateSelection : Scrollable → Scrollable) (titlesCount : Nat) (st : State) :
    Option State :=
  if !getBottomScroll st then
    let entries := gridEntries st
    let maxentries := maxentries titlesCount st.page entries
    match maxpages titlesCount entries with
    | none => none
    | some maxpages =>
      let r := calculateIndex st.index st.page maxpages maxentries entries st.collen
      some { st with index := r.1, page := r.2,
                     directoryList := st.directoryList.resetIndex }
  else
    some { st with directoryList := updateSelection st.directoryList }

/-- Function `Gui::getSelectorX` (lines 185-188):
`50*((index % (rowlen*collen)) % collen)` computed on `size_t` and returned as
`int`. -/
def getSelectorX (st : State) (index : Nat) : Option Int :=
  if gridEntries st = 0 ∨ st.collen = 0 then none
  else some (toInt32 (wrapSz (50 * ((index % gridEntries st) % st.collen))))

/-- Function `Gui::getSelectorY` (lines 190-193):
`20 + 50*((index % (rowlen*collen)) / collen)` computed on `size_t` and
returned as `int`. -/
def getSelectorY (st : State) (index : Nat) : Option Int :=
  if gridEntries st = 0 ∨ st.collen = 0 then none
  else some (toInt32 (wrapSz (20 + wrapSz (50 * ((index % gridEntries st) / st.collen)))))

/-- The values of `k` for which the icon loop of `draw` (lines 216-224) runs
its body: `for (k = page*entries; k < page*entries + max; k++)`, all on
`size_t`.  Each of them is passed to `getTextureId`. -/
def drawIconIndices (titlesCount : Nat) (st : State) : List Nat :=
  let entries := gridEntries st
  let first := wrapSz (st.page * entries)
  let bound := wrapSz (first + drawMax titlesCount st.page entries)
  List.range' first (bound - first)

/-- The smallest number of pages of `entries` cells that hold `titlesCount`
titles: the ceiling of `titlesCount / entries`.  This is the page count in the
words of the specification, to be compared with `maxpages`. -/
def pagesNeeded (titlesCount entries : Nat) : Nat := (titlesCount + entries - 1) / entries

/-! ## Sample states -/

/-- A state with grid focus on a 4 x 8 grid in which the entries 4, 7 and 9
are selected. -/
def sampleSelection : State := { initialState 4 8 with selectedEntries := [4, 7, 9] }

/-- A state with list focus on a 4 x 8 grid: the grid selector is on cell 5 of
page 2 and the list selector on its fourth row. -/
def sampleListFocus : State :=
  { initialState 4 8 with index := 5, page := 2, directoryList := ⟨3, 0⟩,
                          bottomScrollEnabled := true }

/-! ## Lemmas on the selection vector -/

theorem findExisting_of_ne (index : Nat) (l : List Nat) (i : Nat) (e : Int)
    (h : e ≠ -1) : findExisting index l i e = e := by
  cases l <;> simp [findExisting, h]

theorem findExisting_of_not_mem (index : Nat) (l : List Nat) (i : Nat)
    (h : index ∉ l) : findExisting index l i (-1) = -1 := by
  induction l generalizing i with
  | nil => rfl
  | cons x rest ih =>
    have hx : x ≠ index := fun e => h (by simp [e])
    have hr : index ∉ rest := fun m => h (List.mem_cons_of_mem _ m)
    simp [findExisting, hx, ih _ hr]

theorem findExisting_first (index : Nat) (l1 l2 : List Nat) (i : Nat)
    (h : index ∉ l1) :
    findExisting index (l1 ++ index :: l2) i (-1) = ((i + l1.length : Nat) : Int) := by
  induction l1 generalizing i with
  | nil =>
    have hi : (i : Int) ≠ -1 := by omega
    simp [findExisting, findExisting_of_ne index l2 (i + 1) (i : Int) hi]
  | cons x rest ih =>
    have hx : x ≠ index := fun e => h (by simp [e])
    have hr : index ∉ rest := fun m => h (List.mem_cons_of_mem _ m)
    have hrec := ih (i + 1) hr
    show findExisting index (x :: (rest ++ index :: l2)) i (-1) = _
    rw [findExisting, if_pos rfl, if_neg hx, hrec, List.length_cons]
    congr 1
    omega

theorem eraseIdx_length_append (l1 l2 : List Nat) (a : Nat) :
    (l1 ++ a :: l2).eraseIdx l1.length = l1 ++ l2 := by
  induction l1 with
  | nil => rfl
  | cons x rest ih => simp [List.eraseIdx, ih]

theorem split_first (a : Nat) (l : List Nat) (h : a ∈ l) :
    ∃ l1 l2, l = l1 ++ a :: l2 ∧ a ∉ l1 := by
  induction l with
  | nil => cases h
  | cons x rest ih =>
    by_cases hx : x = a
    · exact ⟨[], rest, by simp [hx], by simp⟩
    · have hr : a ∈ rest := by
        rcases List.mem_cons.mp h with e | m
        · exact absurd e.symm hx
        · exact m
      obtain ⟨l1, l2, e, n⟩ := ih hr
      refine ⟨x :: l1, l2, by simp [e], ?_⟩
      intro m
      rcases List.mem_cons.mp m with e2 | m2
      · exact hx e2.symm
      · exact n m2

theorem add_of_not_mem (index : Nat) (st : State) (h : index ∉ st.selectedEntries) :
    (addSelectedEntry index st).selectedEntries = st.selectedEntries ++ [index] := by
  simp [addSelectedEntry, findExisting_of_not_mem index _ 0 h]

theorem add_of_split (index : Nat) (st : State) (l1 l2 : List Nat)
    (e : st.selectedEntries = l1 ++ index :: l2) (h : index ∉ l1) :
    (addSelectedEntry index st).selectedEntries = l1 ++ l2 := by
  have hf := findExisting_first index l1 l2 0 h
  have hne : ((0 + l1.length : Nat) : Int) ≠ -1 := by omega
  simp only [addSelectedEntry, e, hf, if_neg hne, Int.toNat_ofNat, Nat.zero_add]
  exact eraseIdx_length_append l1 l2 index

theorem add_nodup (index : Nat) (st : State) (h : st.selectedEntries.Nodup) :
    (addSelectedEntry index st).selectedEntries.Nodup := by
  by_cases hm : index ∈ st.selectedEntries
  · obtain ⟨l1, l2, e, n⟩ := split_first index _ hm
    rw [add_of_split index st l1 l2 e n]
    rw [e] at h
    exact (List.Sublist.nodup (List.Sublist.append_left (List.sublist_cons_self _ _) _) h)
  · rw [add_of_not_mem index st hm]
    exact List.Nodup.append h (List.nodup_singleton _) (by simpa using hm)

theorem runSelOps_nodup (ops : List SelOp) (st : State) (h : st.selectedEntries.Nodup) :
    (runSelOps ops st).selectedEntries.Nodup := by
  induction ops generalizing st with
  | nil => exact h
  | cons op rest ih =>
    cases op with
    | add index => exact ih _ (add_nodup index st h)
    | clear => exact ih _ List.nodup_nil

/-! ## Properties of the multi selection -/

/-- C2: `addSelectedEntry(i)` appends `i` at the end of the selection vector
when `i` does not occur in it, and erases the first occurrence of `i`, keeping
the other elements in their order, when it does.  Hence the membership of every
index `j` different from `i` is unchanged, and when the vector holds no index
twice, `i` is selected afterwards exactly when it was not selected before. -/
theorem C2_addSelectedEntry_toggles (st : State) (i : Nat) :
    (i ∉ getSelectedEntries st →
      getSelectedEntries (addSelectedEntry i st) = getSelectedEntries st ++ [i]) ∧
    (i ∈ getSelectedEntries st →
      ∃ l1 l2, getSelectedEntries st = l1 ++ i :: l2 ∧ i ∉ l1 ∧
        getSelectedEntries (addSelectedEntry i st) = l1 ++ l2) ∧
    (∀ j, j ≠ i →
      (j ∈ getSelectedEntries (addSelectedEntry i st) ↔ j ∈ getSelectedEntries st)) ∧
    ((getSelectedEntries st).Nodup →
      (i ∈ getSelectedEntries (addSelectedEntry i st) ↔ i ∉ getSelectedEntries st)) := by
  unfold getSelectedEntries
  refine ⟨add_of_not_mem i st, ?_, ?_, ?_⟩
  · intro hm
    obtain ⟨l1, l2, e, n⟩ := split_first i _ hm
    exact ⟨l1, l2, e, n, add_of_split i st l1 l2 e n⟩
  · intro j hj
    by_cases hm : i ∈ st.selectedEntries
    · obtain ⟨l1, l2, e, n⟩ := split_first i _ hm
      rw [add_of_split i st l1 l2 e n, e]
      simp [hj]
    · rw [add_of_not_mem i st hm]
      simp [hj]
  · intro hnd
    by_cases hm : i ∈ st.selectedEntries
    · obtain ⟨l1, l2, e, n⟩ := split_first i _ hm
      rw [add_of_split i st l1 l2 e n]
      rw [e] at hnd
      have h2 : i ∉ l2 := by
        intro m2
        have := List.nodup_append.mp hnd
        exact (List.nodup_cons.mp this.2.1).1 m2
      simp [hm, n, h2]
    · rw [add_of_not_mem i st hm]
      simp [hm]

/-- Witness of C2 on the selection `[4, 7, 9]`: toggling `7` erases it, and
toggling `5` appends it. -/
theorem C2_addSelectedEntry_toggles_witness :
    getSelectedEntries (addSelectedEntry 7
        sampleSelection) = [4, 9] ∧
    getSelectedEntries (addSelectedEntry 5
        sampleSelection) = [4, 7, 9] ++ [5] :=
  ⟨by decide,
   (C2_addSelectedEntry_toggles
      sampleSelection 5).1 (by decide)⟩

/-- C1: on a selection that holds no index twice, two consecutive calls of
`addSelectedEntry(i)` leave the selection with exactly the members it had: an
index is selected afterwards if and only if it was selected before (and the
vector is a rearrangement of the former one). -/
theorem C1_toggle_twice_restores_members (st : State) (i : Nat)
    (h : (getSelectedEntries st).Nodup) :
    (∀ j, j ∈ getSelectedEntries (addSelectedEntry i (addSelectedEntry i st)) ↔
          j ∈ getSelectedEntries st) ∧
    (getSelectedEntries (addSelectedEntry i (addSelectedEntry i st))).Perm
      (getSelectedEntries st) := by
  unfold getSelectedEntries at *
  have key : (addSelectedEntry i (addSelectedEntry i st)).selectedEntries.Perm
      st.selectedEntries := by
    by_cases hm : i ∈ st.selectedEntries
    · obtain ⟨l1, l2, e, n⟩ := split_first i _ hm
      have h1 := add_of_split i st l1 l2 e n
      have hnot : i ∉ (addSelectedEntry i st).selectedEntries := by
        rw [h1]
        rw [e] at h
        have h2 : i ∉ l2 := by
          intro m2
          have := List.nodup_append.mp h
          exact (List.nodup_cons.mp this.2.1).1 m2
        simp [n, h2]
      rw [add_of_not_mem i _ hnot, h1, e]
      have hp : (l1 ++ (l2 ++ [i])).Perm (l1 ++ ([i] ++ l2)) :=
        List.Perm.append_left l1 List.perm_append_comm
      simpa using hp
    · have h1 := add_of_not_mem i st hm
      rw [add_of_split i (addSelectedEntry i st) st.selectedEntries [] h1 hm]
      simp
  exact ⟨fun j => key.mem_iff, key⟩

/-- Witness of C1 on the selection `[4, 7, 9]` and the index `7`. -/
theorem C1_toggle_twice_restores_members_witness :
    (getSelectedEntries sampleSelection).Nodup ∧
    (getSelectedEntries (addSelectedEntry 7 (addSelectedEntry 7
            sampleSelection))).Perm
      (getSelectedEntries sampleSelection) :=
  ⟨by decide,
   (C1_toggle_twice_restores_members
      sampleSelection 7 (by decide)).2⟩

/-- C3: in every state reached from an empty selection by a sequence of
`addSelectedEntry(i)` and `clearSelectedEntries()` calls, the vector returned
by `getSelectedEntries()` contains no index more than once. -/
theorem C3_reachable_selection_nodup (st : State) (ops : List SelOp)
    (h : getSelectedEntries st = []) :
    (getSelectedEntries (runSelOps ops st)).Nodup := by
  unfold getSelectedEntries at *
  exact runSelOps_nodup ops st (by rw [h]; exact List.nodup_nil)

/-- Witness of C3: the calls add 3, add 5, add 3, add 3, clear, add 1, add 5
from the initial state. -/
theorem C3_reachable_selection_nodup_witness :
    getSelectedEntries (initialState 4 8) = [] ∧
    (getSelectedEntries (runSelOps
      [.add 3, .add 5, .add 3, .add 3, .clear, .add 1, .add 5] (initialState 4 8))).Nodup :=
  ⟨rfl, C3_reachable_selection_nodup (initialState 4 8) _ rfl⟩

/-- C8: `multipleSelectionEnabled()` returns true if and only if
`getSelectedEntries()` is not empty; after `clearSelectedEntries()` the
selection is empty and `multipleSelectionEnabled()` returns false, whatever
the selection was. -/
theorem C8_enabled_iff_nonempty_and_clear (st : State) :
    (multipleSelectionEnabled st = true ↔ getSelectedEntries st ≠ []) ∧
    getSelectedEntries (clearSelectedEntries st) = [] ∧
    multipleSelectionEnabled (clearSelectedEntries st) = false := by
  refine ⟨?_, rfl, rfl⟩
  unfold multipleSelectionEnabled getSelectedEntries
  cases st.selectedEntries <;> simp

/-! ## Focus flag and list selector -/

theorem add_changes (index : Nat) (st : State) :
    (addSelectedEntry index st).selectedEntries ≠ st.selectedEntries := by
  by_cases hm : index ∈ st.selectedEntries
  · obtain ⟨l1, l2, e, n⟩ := split_first index _ hm
    rw [add_of_split index st l1 l2 e n, e]
    intro h
    have := congrArg List.length h
    simp at this
  · rw [add_of_not_mem index st hm]
    intro h
    have := congrArg List.length h
    simp at this

/-- C7: with list focus active (`getBottomScroll()` true), `updateSelector()`
returns, and it leaves the grid selector as it was: `index`, `page` and hence
`getNormalizedIndex()` keep their values whatever the input; the only thing
that changes is the directory list selector, which receives
`updateSelection()`. -/
theorem C7_list_focus_freezes_grid_selector
    (calculateIndex : Nat → Nat → Nat → Nat → Nat → Nat → Nat × Nat)
    (updateSelection : Scrollable → Scrollable) (titlesCount : Nat) (st : State)
    (h : getBottomScroll st = true) :
    ∃ st', updateSelector calculateIndex updateSelection titlesCount st = some st' ∧
      st'.index = st.index ∧ st'.page = st.page ∧
      getNormalizedIndex st' = getNormalizedIndex st ∧
      st' = { st with directoryList := updateSelection st.directoryList } := by
  refine ⟨{ st with directoryList := updateSelection st.directoryList }, ?_, rfl, rfl, rfl, rfl⟩
  simp [updateSelector, h]

/-- Witness of C7: list focus on page 2, cell 5 of a 4 x 8 grid, with a
`calculateIndex` that would move the selector and an `updateSelection` that
moves the list one row down. -/
theorem C7_list_focus_freezes_grid_selector_witness :
    getBottomScroll sampleListFocus = true ∧
    ∃ st', updateSelector (fun _ _ _ _ _ _ => (0, 0)) (fun s => ⟨s.index + 1, s.offset⟩) 70
        sampleListFocus = some st' ∧
      st'.index = sampleListFocus.index ∧ st'.page = sampleListFocus.page ∧
      getNormalizedIndex st' = getNormalizedIndex sampleListFocus ∧
      st' = { sampleListFocus with directoryList := ⟨4, 0⟩ } :=
  ⟨rfl, C7_list_focus_freezes_grid_selector (fun _ _ _ _ _ _ => (0, 0))
      (fun s => ⟨s.index + 1, s.offset⟩) 70 sampleListFocus rfl⟩

/-- C5, as stated, fails: with list focus on the fourth row of the list
(index 3), `setBottomScroll(false)` switches the focus to the grid and the
list index is still 3, not 0. -/
theorem C5_mode_switch_keeps_list_row_counterexample :
    getBottomScroll sampleListFocus ≠ false ∧
    (setBottomScroll false sampleListFocus).directoryList.getIndex = 3 ∧
    (setBottomScroll false sampleListFocus).directoryList.getIndex ≠ 0 := by
  decide

/-- C5, amended: `setBottomScroll(b)` writes the focus flag and nothing else,
so the list selector is after the call what it was before.  The list is put
back on its first row by `updateSelector()` running with grid focus: on a grid
whose `entries` is not zero, `updateSelector()` after `setBottomScroll(false)`
returns a state whose list index is 0, and a switch to list focus from that
state finds the list index at 0. -/
theorem C5_list_reset_by_grid_focus_update
    (calculateIndex : Nat → Nat → Nat → Nat → Nat → Nat → Nat × Nat)
    (updateSelection : Scrollable → Scrollable) (titlesCount : Nat) (st : State)
    (b : Bool) (hgrid : gridEntries st ≠ 0) :
    setBottomScroll b st = { st with bottomScrollEnabled := b } ∧
    (setBottomScroll b st).directoryList = st.directoryList ∧
    ∃ st', updateSelector calculateIndex updateSelection titlesCount
        (setBottomScroll false st) = some st' ∧
      st'.directoryList.getIndex = 0 ∧
      (setBottomScroll true st').directoryList.getIndex = 0 := by
  refine ⟨rfl, rfl, ?_⟩
  have hg : gridEntries (setBottomScroll false st) ≠ 0 := hgrid
  simp [updateSelector, getBottomScroll, setBottomScroll, maxpages, hg,
    Scrollable.resetIndex, Scrollable.getIndex] at *
  simp [gridEntries] at *
  simp [hgrid]

/-- Witness of C5 (amended): list focus on the fourth row of the list of a
4 x 8 grid with 70 titles. -/
theorem C5_list_reset_by_grid_focus_update_witness :
    gridEntries sampleListFocus ≠ 0 ∧
    ∃ st', updateSelector (fun i p _ _ _ _ => (i, p)) (fun s => s) 70
        (setBottomScroll false sampleListFocus) = some st' ∧
      st'.directoryList.getIndex = 0 ∧
      (setBottomScroll true st').directoryList.getIndex = 0 :=
  ⟨by decide,
   (C5_list_reset_by_grid_focus_update (fun i p _ _ _ _ => (i, p)) (fun s => s) 70
      sampleListFocus true (by decide)).2.2⟩

/-- C6, as stated, fails: with list focus active, `addSelectedEntry(5)` turns
the empty selection into `[5]`, and `clearSelectedEntries()` turns the
selection `[5]` into the empty one. -/
theorem C6_selection_written_in_list_focus_counterexample :
    getBottomScroll sampleListFocus = true ∧
    getSelectedEntries sampleListFocus = [] ∧
    getSelectedEntries (addSelectedEntry 5 sampleListFocus) = [5] ∧
    getBottomScroll (addSelectedEntry 5 sampleListFocus) = true ∧
    getSelectedEntries (clearSelectedEntries (addSelectedEntry 5 sampleListFocus)) = [] ∧
    getSelectedEntries (clearSelectedEntries (addSelectedEntry 5 sampleListFocus)) ≠
      getSelectedEntries (addSelectedEntry 5 sampleListFocus) := by
  decide

/-- C6, amended: in every state in which list focus is active,
`updateSelector()`, `resetIndex()` and `setBottomScroll(b)` leave the value of
`getSelectedEntries()` unchanged.  The two functions that write the selection
do not look at the focus: `addSelectedEntry(i)` changes the selection in every
state, and `clearSelectedEntries()` empties it in every state. -/
theorem C6_gui_operations_keep_selection
    (calculateIndex : Nat → Nat → Nat → Nat → Nat → Nat → Nat × Nat)
    (updateSelection : Scrollable → Scrollable) (titlesCount : Nat) (st : State)
    (b : Bool) (i : Nat) (h : getBottomScroll st = true) :
    (∃ st', updateSelector calculateIndex updateSelection titlesCount st = some st' ∧
      getSelectedEntries st' = getSelectedEntries st) ∧
    getSelectedEntries (resetIndex st) = getSelectedEntries st ∧
    getSelectedEntries (setBottomScroll b st) = getSelectedEntries st ∧
    getSelectedEntries (addSelectedEntry i st) ≠ getSelectedEntries st ∧
    getSelectedEntries (clearSelectedEntries st) = [] := by
  refine ⟨⟨{ st with directoryList := updateSelection st.directoryList }, ?_, rfl⟩,
    rfl, rfl, add_changes i st, rfl⟩
  simp [updateSelector, h]

/-- Witness of C6 (amended): list focus with the entries 4 and 7 selected. -/
theorem C6_gui_operations_keep_selection_witness :
    getBottomScroll { sampleListFocus with selectedEntries := [4, 7] } = true ∧
    getSelectedEntries (resetIndex { sampleListFocus with selectedEntries := [4, 7] })
      = [4, 7] ∧
    getSelectedEntries (setBottomScroll false
      { sampleListFocus with selectedEntries := [4, 7] }) = [4, 7] :=
  ⟨rfl,
   (C6_gui_operations_keep_selection (fun i p _ _ _ _ => (i, p)) (fun s => s) 70
      { sampleListFocus with selectedEntries := [4, 7] } false 9 rfl).2.1,
   rfl⟩

/-! ## Grid arithmetic -/

theorem wrapSz_of_lt (n : Nat) (h : n < sizeMod) : wrapSz n = n :=
  Nat.mod_eq_of_lt h

theorem wrapSz_le (n : Nat) : wrapSz n ≤ n := Nat.mod_le n _

theorem toInt32_of_lt (n : Nat) (h : n < 2147483648) : toInt32 n = (n : Int) := by
  have hw : wrapSz n = n := wrapSz_of_lt n (by unfold sizeMod; omega)
  simp [toInt32, hw, h]

theorem subSz_of_le (a b : Nat) (ha : a < sizeMod) (hb : b ≤ a) : subSz a b = a - b := by
  have hb2 : b < sizeMod := Nat.lt_of_le_of_lt hb ha
  unfold subSz
  rw [wrapSz_of_lt a ha, wrapSz_of_lt b hb2]
  unfold sizeMod at *
  omega

/-- Every grid of at most 42949672 cells, which includes every grid of 50 x 50
cells laid out on the 400 x 240 screen, has a non-zero `entries` and cell
positions within the range of `int`. -/
theorem grid_positions_representable (st : State) (hr : 0 < st.rowlen)
    (hc : 0 < st.collen) (hcells : st.rowlen * st.collen ≤ 42949672) :
    gridEntries st ≠ 0 ∧ 50 * (st.collen - 1) < 2147483648 ∧
    20 + 50 * (st.rowlen - 1) < 2147483648 := by
  have h1 : st.collen ≤ st.rowlen * st.collen := Nat.le_mul_of_pos_left _ hr
  have h2 : st.rowlen ≤ st.rowlen * st.collen := Nat.le_mul_of_pos_right _ hc
  have h3 : 0 < st.rowlen * st.collen := Nat.mul_pos hr hc
  refine ⟨?_, by omega, by omega⟩
  have hw : gridEntries st = st.rowlen * st.collen :=
    wrapSz_of_lt _ (by unfold sizeMod; omega)
  omega

/-- C4: for every grid with `rowlen > 0` and `collen > 0` and every linear
index, the computed cell position lies within the grid: `getSelectorX` and
`getSelectorY` return, with `0 <= x <= 50*(collen-1)` and
`20 <= y <= 20 + 50*(rowlen-1)`, so the 50 x 50 highlighted cell lies inside
the rectangle of width `50*collen` and height `50*rowlen` whose top-left corner
is `(0, 20)`.  The grid ranges over the values that the machine types of the
functions can express: its `entries` (`rowlen*collen` on `size_t`) is not zero
and its last cell position is an `int` (`50*(collen-1)` and
`20 + 50*(rowlen-1)` below `2^31`), which holds of every grid of at most
42949672 cells (`grid_positions_representable`). -/
theorem C4_selector_position_in_grid (st : State) (index : Nat)
    (hr : 0 < st.rowlen) (hc : 0 < st.collen) (hgrid : gridEntries st ≠ 0)
    (hx : 50 * (st.collen - 1) < 2147483648)
    (hy : 20 + 50 * (st.rowlen - 1) < 2147483648) :
    ∃ x y : Int, getSelectorX st index = some x ∧ getSelectorY st index = some y ∧
      0 ≤ x ∧ x ≤ 50 * ((st.collen : Int) - 1) ∧
      20 ≤ y ∧ y ≤ 20 + 50 * ((st.rowlen : Int) - 1) ∧
      x + 50 ≤ 50 * (st.collen : Int) ∧ y + 50 ≤ 20 + 50 * (st.rowlen : Int) := by
  have hc0 : st.collen ≠ 0 := Nat.pos_iff_ne_zero.mp hc
  have hm : index % gridEntries st < gridEntries st :=
    Nat.mod_lt _ (Nat.pos_of_ne_zero hgrid)
  have hle : gridEntries st ≤ st.rowlen * st.collen := wrapSz_le _
  -- column and row of the cell
  obtain ⟨col, hcol⟩ : ∃ col, col = index % gridEntries st % st.collen := ⟨_, rfl⟩
  obtain ⟨row, hrow⟩ : ∃ row, row = index % gridEntries st / st.collen := ⟨_, rfl⟩
  have hcol1 : col < st.collen := hcol ▸ Nat.mod_lt _ hc
  have hrow1 : row < st.rowlen :=
    hrow ▸ (Nat.div_lt_iff_lt_mul hc).mpr (Nat.lt_of_lt_of_le hm hle)
  have hX : 50 * col < 2147483648 := by omega
  have hY : 20 + 50 * row < 2147483648 := by omega
  have hwX : wrapSz (50 * col) = 50 * col := wrapSz_of_lt _ (by unfold sizeMod; omega)
  have hwY : wrapSz (20 + wrapSz (50 * row)) = 20 + 50 * row := by
    rw [wrapSz_of_lt (50 * row) (by unfold sizeMod; omega)]
    exact wrapSz_of_lt _ (by unfold sizeMod; omega)
  refine ⟨((50 * col : Nat) : Int), ((20 + 50 * row : Nat) : Int), ?_, ?_, ?_⟩
  · simp only [getSelectorX, hgrid, hc0, or_self, if_false, ← hcol, hwX]
    rw [toInt32_of_lt _ hX]
  · simp only [getSelectorY, hgrid, hc0, or_self, if_false, ← hrow, hwY]
    rw [toInt32_of_lt _ hY]
  · omega

/-- Witness of C4: the 4 x 8 grid and the linear index 77, which is
cell 13 of its page: column 5, row 1, hence the position (250, 70). -/
theorem C4_selector_position_in_grid_witness :
    getSelectorX (initialState 4 8) 77 = some 250 ∧
    getSelectorY (initialState 4 8) 77 = some 70 ∧
    ∃ x y : Int, getSelectorX (initialState 4 8) 77 = some x ∧
      getSelectorY (initialState 4 8) 77 = some y ∧
      0 ≤ x ∧ x ≤ 50 * (((initialState 4 8).collen : Int) - 1) ∧
      20 ≤ y ∧ y ≤ 20 + 50 * (((initialState 4 8).rowlen : Int) - 1) ∧
      x + 50 ≤ 50 * ((initialState 4 8).collen : Int) ∧
      y + 50 ≤ 20 + 50 * ((initialState 4 8).rowlen : Int) :=
  ⟨by decide, by decide,
   C4_selector_position_in_grid (initialState 4 8) 77 (by decide) (by decide)
     (by decide) (by decide) (by decide)⟩

/-! ## Pages -/

theorem page_mul_le (titlesCount entries page : Nat) (he : 0 < entries)
    (hp : page < titlesCount / entries + 1) : page * entries ≤ titlesCount :=
  (Nat.le_div_iff_mul_le he).mp (Nat.lt_succ_iff.mp hp)

theorem maxentries_eq_min (titlesCount entries page : Nat) (hn : titlesCount < sizeMod)
    (hpe : page * entries ≤ titlesCount) :
    maxentries titlesCount page entries = min entries (titlesCount - page * entries) := by
  have hw : wrapSz (page * entries) = page * entries :=
    wrapSz_of_lt _ (Nat.lt_of_le_of_lt hpe hn)
  unfold maxentries
  rw [hw, subSz_of_le _ _ hn hpe]
  split <;> omega

theorem drawMax_eq_maxentries (titlesCount page entries : Nat) :
    drawMax titlesCount page entries = maxentries titlesCount page entries := rfl

/-- C9: for every title count, every grid whose `entries` is positive and
every page below `titlesCount / entries + 1` (which bounds the page count that
`updateSelector` computes), the product `page*entries` and the unsigned
subtraction `titlesCount - page*entries` do not wrap, the per-page entry count
of `draw()` and of `updateSelector()` is `min(entries, titlesCount -
page*entries)`, and the icon loop of `draw()` visits exactly the indices `k`
with `page*entries <= k < page*entries + max`, all of which are below
`titlesCount`. -/
theorem C9_page_entries_within_titles (titlesCount : Nat) (st : State)
    (hn : titlesCount < sizeMod) (he : 0 < gridEntries st)
    (hp : st.page < titlesCount / gridEntries st + 1) :
    (∃ m, maxpages titlesCount (gridEntries st) = some m ∧
      m ≤ titlesCount / gridEntries st + 1) ∧
    wrapSz (st.page * gridEntries st) = st.page * gridEntries st ∧
    st.page * gridEntries st ≤ titlesCount ∧
    subSz titlesCount (wrapSz (st.page * gridEntries st))
      = titlesCount - st.page * gridEntries st ∧
    drawMax titlesCount st.page (gridEntries st)
      = min (gridEntries st) (titlesCount - st.page * gridEntries st) ∧
    maxentries titlesCount st.page (gridEntries st)
      = min (gridEntries st) (titlesCount - st.page * gridEntries st) ∧
    (∀ k, k ∈ drawIconIndices titlesCount st ↔
      st.page * gridEntries st ≤ k ∧
      k < st.page * gridEntries st + drawMax titlesCount st.page (gridEntries st)) ∧
    (∀ k, k ∈ drawIconIndices titlesCount st → k < titlesCount) := by
  have hpe := page_mul_le titlesCount (gridEntries st) st.page he hp
  have hw : wrapSz (st.page * gridEntries st) = st.page * gridEntries st :=
    wrapSz_of_lt _ (Nat.lt_of_le_of_lt hpe hn)
  have hmax := maxentries_eq_min titlesCount (gridEntries st) st.page hn hpe
  have hdm : drawMax titlesCount st.page (gridEntries st)
      = min (gridEntries st) (titlesCount - st.page * gridEntries st) := hmax
  have hbound : st.page * gridEntries st + drawMax titlesCount st.page (gridEntries st)
      ≤ titlesCount := by
    rw [hdm]; omega
  have hmem : ∀ k, k ∈ drawIconIndices titlesCount st ↔
      st.page * gridEntries st ≤ k ∧
      k < st.page * gridEntries st + drawMax titlesCount st.page (gridEntries st) := by
    intro k
    have hwb : wrapSz (st.page * gridEntries st
        + drawMax titlesCount st.page (gridEntries st))
        = st.page * gridEntries st + drawMax titlesCount st.page (gridEntries st) :=
      wrapSz_of_lt _ (Nat.lt_of_le_of_lt hbound hn)
    simp only [drawIconIndices, hw, hwb, Nat.add_sub_cancel_left, List.mem_range'_1]
  refine ⟨⟨wrapSz (titlesCount / gridEntries st + 1), ?_, wrapSz_le _⟩, hw, hpe, ?_,
    hdm, hmax, hmem, ?_⟩
  · simp [maxpages, Nat.pos_iff_ne_zero.mp he]
  · rw [hw, subSz_of_le _ _ hn hpe]
  · intro k hk
    have := (hmem k).mp hk
    omega

/-- Witness of C9: 70 titles on a 4 x 8 grid, page 2 (the last one, with the
6 titles 64 to 69). -/
theorem C9_page_entries_within_titles_witness :
    70 < sizeMod ∧ 0 < gridEntries sampleListFocus ∧
    sampleListFocus.page < 70 / gridEntries sampleListFocus + 1 ∧
    drawIconIndices 70 sampleListFocus = [64, 65, 66, 67, 68, 69] ∧
    (∀ k, k ∈ drawIconIndices 70 sampleListFocus → k < 70) :=
  ⟨by decide, by decide, by decide, by decide,
   (C9_page_entries_within_titles 70 sampleListFocus (by decide) (by decide)
      (by decide)).2.2.2.2.2.2.2⟩

/-- C10 fails on the code when the title count is a multiple of the grid size:
with 32 titles on a 4 x 8 grid, `updateSelector()` computes `maxpages = 2`
where one page holds all the titles, and page 1, which is below `maxpages`,
has `maxentries = 0`. -/
theorem C10_empty_extra_page_at_exact_multiple :
    gridEntries (initialState 4 8) = 32 ∧
    maxpages 32 (gridEntries (initialState 4 8)) = some 2 ∧
    pagesNeeded 32 (gridEntries (initialState 4 8)) = 1 ∧
    maxentries 32 1 (gridEntries (initialState 4 8)) = 0 ∧
    drawMax 32 1 (gridEntries (initialState 4 8)) = 0 := by
  decide

/-- Whenever the title count is a positive multiple `k * entries` of the grid
size, `maxpages` is one more than the number of pages needed and the last page
is empty. -/
theorem maxpages_at_multiple (k entries : Nat) (hk : 0 < k) (he : 0 < entries)
    (hn : k * entries + 1 < sizeMod) :
    maxpages (k * entries) entries = some (k + 1) ∧
    pagesNeeded (k * entries) entries = k ∧
    maxentries (k * entries) k entries = 0 := by
  have hk1 : k ≤ k * entries := Nat.le_mul_of_pos_right k he
  refine ⟨?_, ?_, ?_⟩
  · have hw : wrapSz (k + 1) = k + 1 := wrapSz_of_lt _ (by omega)
    simp [maxpages, Nat.pos_iff_ne_zero.mp he, Nat.mul_div_cancel _ he, hw]
  · unfold pagesNeeded
    apply Nat.div_eq_of_lt_le
    · omega
    · have : (k + 1) * entries = k * entries + entries := by ring
      omega
  · rw [maxentries_eq_min _ _ _ (by omega) (Nat.le_refl _)]
    simp

/-- Whenever the title count is not a multiple of the grid size, `maxpages` is
the number of pages needed and every page below it holds at least one title. -/
theorem maxpages_off_multiple (titlesCount entries page : Nat) (he : 0 < entries)
    (hn : titlesCount < sizeMod) (hm : titlesCount % entries ≠ 0)
    (hp : page < pagesNeeded titlesCount entries) :
    maxpages titlesCount entries = some (pagesNeeded titlesCount entries) ∧
    1 ≤ maxentries titlesCount page entries := by
  have hdm := Nat.div_add_mod titlesCount entries
  have hml := Nat.mod_lt titlesCount he
  have hq : pagesNeeded titlesCount entries = titlesCount / entries + 1 := by
    unfold pagesNeeded
    apply Nat.div_eq_of_lt_le
    · have : (titlesCount / entries + 1) * entries
          = entries * (titlesCount / entries) + entries := by ring
      omega
    · have : (titlesCount / entries + 1 + 1) * entries
          = entries * (titlesCount / entries) + entries + entries := by ring
      omega
  have hdle : titlesCount / entries ≤ titlesCount := Nat.div_le_self _ _
  refine ⟨?_, ?_⟩
  · have hw : wrapSz (titlesCount / entries + 1) = titlesCount / entries + 1 := by
      apply wrapSz_of_lt
      have : 0 < titlesCount := by
        rcases Nat.eq_zero_or_pos titlesCount with h0 | h0
        · simp [h0] at hm
        · exact h0
      have h1 : titlesCount / entries < sizeMod := Nat.lt_of_le_of_lt hdle hn
      by_cases h2 : titlesCount / entries + 1 < sizeMod
      · exact h2
      · have h3 : titlesCount / entries = titlesCount := by omega
        have h4 : entries * titlesCount + titlesCount % entries = titlesCount := by
          rw [h3] at hdm; exact hdm
        have h5 : titlesCount ≤ entries * titlesCount := Nat.le_mul_of_pos_left _ he
        omega
    simp [maxpages, Nat.pos_iff_ne_zero.mp he, hw, hq]
  · rw [hq] at hp
    have hpe := page_mul_le titlesCount entries page he hp
    rw [maxentries_eq_min _ _ _ hn hpe]
    have hlt : page * entries < titlesCount := by
      have h1 : page * entries ≤ titlesCount / entries * entries :=
        Nat.mul_le_mul_right _ (Nat.lt_succ_iff.mp hp)
      have h2 : titlesCount / entries * entries = entries * (titlesCount / entries) :=
        Nat.mul_comm _ _
      omega
    omega

end Checkpoint
